import Mathlib

/-!
SelectSurface: a shallow embedding of `src/SelectSurface.js`, the Famo.us surface that
renders an HTML select element, with the properties of its option-markup builder, of
its constructor and of its setters and getters.

JavaScript strings are embedded as `String`, the option array as a list of
`[label, value]` entries, a property that may be `undefined` as an `Option`, and the
mutable instance as a record that every method takes and returns.  The base class
`Surface` is an external dependency: its constructor is a parameter of `construct`, and
of its fields only `content`, `_contentDirty` and `_currTarget` appear.  The methods
`focus` and `blur` only forward to the attached node and touch none of these fields;
they are left out.
-/

namespace SelectSurface

/-- One entry `[label, value]` of the option array: `entry[0]` is the label and
`entry[1]` the value. -/
abbrev OptEntry := String × String

/-- The attached node `_currTarget`.  `value` is its current value and `options` the
option entries it holds, as `[label, value]` pairs; `opts` is the property of that name
that `getOpts` reads, `none` when the node has no such property. -/
structure LiveTarget where
  value : String
  options : List OptEntry
  opts : Option (List OptEntry)
deriving DecidableEq, Repr

/-- The `options` object handed to the constructor.  Each field is optional; `content`
is the property that `buildOpts(options)` assigns. -/
structure Options where
  placeholder : Option String
  value : Option String
  name : Option String
  opts : Option (List OptEntry)
  content : Option String
deriving DecidableEq, Repr

/-- The fields the `SelectSurface` constructor assigns itself (lines 29-32). -/
structure SelectFields where
  _placeholder : String
  _value : String
  _name : String
  opts : List OptEntry
deriving DecidableEq, Repr

/-- The fields inherited from the base class `Surface` that this file reads or writes. -/
structure SurfaceFields where
  content : String
  _contentDirty : Bool
  _currTarget : Option LiveTarget
deriving DecidableEq, Repr

/-- An instance: its own fields together with the inherited ones. -/
structure Instance extends SelectFields, SurfaceFields
deriving DecidableEq, Repr

/-- The failure of a property read on `undefined`. -/
inductive JSError where
  | typeError
deriving DecidableEq, Repr

/-- An object whose `content` property can be assigned (`target.content = content`). -/
class ContentTarget (τ : Type) where
  assignContent : τ → String → τ

instance : ContentTarget Instance where
  assignContent target content := { target with content := content }

instance : ContentTarget Options where
  assignContent target content := { target with content := some content }

/-- The expression `x || ''` for a string property that may be absent: `undefined` and
the empty string are the falsy cases. -/
def orEmptyString : Option String → String
  | none => ""
  | some s => if s = "" then "" else s

/-- The expression `x || []` for an array property that may be absent (an array is
always truthy). -/
def orEmptyArray : Option (List OptEntry) → List OptEntry
  | none => []
  | some a => a

/-- The `for` loop of `buildOpts` (lines 176-179), run over the entries that remain to
be visited: each round appends the tag of the next entry to `content`. -/
def buildOptsLoop : List OptEntry → String → String
  | [], content => content
  | entry :: rest, content =>
    buildOptsLoop rest
      (content ++ ("<option value=\"" ++ entry.2 ++ "\">" ++ entry.1 ++ "</option>"))

/-- The local variable `content` of `buildOpts` when the loop has finished (line 180). -/
def builtContent (self : SelectFields) : String :=
  let content :=
    if self._placeholder ≠ "" then
      "<option value=\"\" disabled selected>" ++ self._placeholder ++ "</option>"
    else ""
  buildOptsLoop self.opts content

/-- `SelectSurface.prototype.buildOpts` (lines 170-181): reads `this._placeholder` and
`this.opts`, assigns `target.content`. -/
def buildOpts {τ : Type} [ContentTarget τ] (self : SelectFields) (target : τ) : τ :=
  ContentTarget.assignContent target (builtContent self)

/-- The constructor (lines 28-36).  `Surface` is the base-class constructor, which
receives the `options` object after `buildOpts` has written its `content` and sets up
the inherited fields; the click subscription of line 35 changes none of the fields.
The result is the new instance together with the `options` object as the call leaves
it.  With `options` omitted, line 29 reads a property of `undefined`. -/
def construct (Surface : Options → SurfaceFields) (options : Option Options) :
    Except JSError (Instance × Options) :=
  match options with
  | none => .error .typeError
  | some options =>
    let self : SelectFields :=
      { _placeholder := orEmptyString options.placeholder
        _value := orEmptyString options.value
        _name := orEmptyString options.name
        opts := orEmptyArray options.opts }
    let options := buildOpts self options
    .ok ({ toSelectFields := self, toSurfaceFields := Surface options }, options)

/-- `setPlaceholder` (lines 50-54). -/
def setPlaceholder (self : Instance) (str : String) : Instance :=
  { self with _placeholder := str, _contentDirty := true }

/-- `setValue` (lines 86-90). -/
def setValue (self : Instance) (str : String) : Instance :=
  { self with _value := str, _contentDirty := true }

/-- `getValue` (lines 98-105). -/
def getValue (self : Instance) : String :=
  match self._currTarget with
  | some target => target.value
  | none => self._value

/-- `setName` (lines 115-119). -/
def setName (self : Instance) (str : String) : Instance :=
  { self with _name := str, _contentDirty := true }

/-- `getName` (lines 127-129). -/
def getName (self : Instance) : String :=
  self._name

/-- `getOpts` (lines 137-144): the target's `opts` property when a target is attached,
the local array otherwise. -/
def getOpts (self : Instance) : Option (List OptEntry) :=
  match self._currTarget with
  | some target => target.opts
  | none => some self.opts

/-- `setOpts` (lines 154-159): `buildOpts(this)` reads the array just stored. -/
def setOpts (self : Instance) (opts : List OptEntry) : Instance :=
  let self : Instance := { self with opts := opts }
  let self : Instance := buildOpts self.toSelectFields self
  { self with _contentDirty := true }

/-- A base constructor that treats the modelled fields as `famous/core/Surface` does:
the content starts empty and is replaced by a truthy `options.content`, the content is
dirty, and no target is attached yet. -/
def famousSurface (options : Options) : SurfaceFields :=
  { content := orEmptyString options.content
    _contentDirty := true
    _currTarget := none }

/-- A select element, the node the base class creates for `elementType = 'select'`
(line 40): it has a `value` and `options`, and no property named `opts`. -/
def selectElement (value : String) (options : List OptEntry) : LiveTarget :=
  { value := value, options := options, opts := none }

/-- The step of the base class that attaches a node: `_currTarget` becomes the node. -/
def mount (self : Instance) (node : LiveTarget) : Instance :=
  { self with _currTarget := some node }

/-- A call of one of the four setters. -/
inductive Call where
  | setPlaceholder (str : String)
  | setValue (str : String)
  | setName (str : String)
  | setOpts (opts : List OptEntry)
deriving DecidableEq, Repr

/-- Performs one setter call on an instance. -/
def Call.perform (self : Instance) : Call → Instance
  | .setPlaceholder str => SelectSurface.setPlaceholder self str
  | .setValue str => SelectSurface.setValue self str
  | .setName str => SelectSurface.setName self str
  | .setOpts opts => SelectSurface.setOpts self opts

/-- Performs a sequence of setter calls, first call first. -/
def performAll (self : Instance) (calls : List Call) : Instance :=
  calls.foldl Call.perform self

/-! ## The markup in the words of the specification -/

/-- Concatenation of a sequence of strings, in order. -/
def concatAll : List String → String
  | [] => ""
  | t :: ts => t ++ concatAll ts

/-- The placeholder entry as the specification writes it:
`<option value="" disabled selected>{placeholder}</option>`. -/
def specPlaceholderTag (placeholder : String) : String :=
  "<option value=\"\" disabled selected>" ++ placeholder ++ "</option>"

/-- The entry of one option as the specification writes it:
`<option value="{value}">{label}</option>`. -/
def specOptionTag (label value : String) : String :=
  "<option value=\"" ++ value ++ "\">" ++ label ++ "</option>"

/-- The tags the specification lists for a placeholder and an option sequence: the
placeholder tag when the placeholder is non-empty, then one tag for every option. -/
def specTags (placeholder : String) (options : List OptEntry) : List String :=
  (if placeholder ≠ "" then [specPlaceholderTag placeholder] else [])
    ++ options.map (fun o => specOptionTag o.1 o.2)

/-- The content string as the specification describes `buildContent`: the placeholder
tag if the placeholder is non-empty, followed by the tag of every option in order. -/
def specBuildContent (placeholder : String) (options : List OptEntry) : String :=
  (if placeholder ≠ "" then specPlaceholderTag placeholder else "")
    ++ concatAll (options.map (fun o => specOptionTag o.1 o.2))

/-! ## The content invariant -/

/-- The content invariant: the content field is the markup of the current placeholder
and option array. -/
def ContentCurrent (self : Instance) : Prop :=
  self.content = builtContent self.toSelectFields

instance (self : Instance) : Decidable (ContentCurrent self) := by
  unfold ContentCurrent; infer_instance

/-! ## Lemmas on the builder -/

theorem concatAll_append (xs ys : List String) :
    concatAll (xs ++ ys) = concatAll xs ++ concatAll ys := by
  induction xs with
  | nil => simp [concatAll]
  | cons x xs ih => simp [concatAll, ih, String.append_assoc]

/-- The loop appends to the content it starts from the tags of the entries it visits. -/
theorem buildOptsLoop_eq (opts : List OptEntry) (content : String) :
    buildOptsLoop opts content
      = content ++ concatAll (opts.map (fun o => specOptionTag o.1 o.2)) := by
  induction opts generalizing content with
  | nil => simp [buildOptsLoop, concatAll]
  | cons entry rest ih =>
    simp [buildOptsLoop, ih, concatAll, specOptionTag, String.append_assoc]

/-- The content the code builds is the content the specification describes. -/
theorem builtContent_eq_spec (self : SelectFields) :
    builtContent self = specBuildContent self._placeholder self.opts := by
  unfold builtContent specBuildContent specPlaceholderTag
  simp only [buildOptsLoop_eq]

/-- The specified content is the concatenation of the specified tags. -/
theorem specBuildContent_eq_concatAll (placeholder : String) (options : List OptEntry) :
    specBuildContent placeholder options = concatAll (specTags placeholder options) := by
  unfold specBuildContent specTags
  by_cases h : placeholder = "" <;> simp [h, concatAll_append, concatAll]

theorem specTags_length (placeholder : String) (options : List OptEntry) :
    (specTags placeholder options).length
      = options.length + (if placeholder ≠ "" then 1 else 0) := by
  unfold specTags
  by_cases h : placeholder = "" <;> simp [h, Nat.add_comm]

/-- The loop run over two arrays in a row is the loop run over their concatenation. -/
theorem buildOptsLoop_append (o₁ o₂ : List OptEntry) (content : String) :
    buildOptsLoop (o₁ ++ o₂) content = buildOptsLoop o₂ (buildOptsLoop o₁ content) := by
  induction o₁ generalizing content with
  | nil => rfl
  | cons entry rest ih => simp [buildOptsLoop, ih]

/-- The placeholder part of the content determines the placeholder. -/
theorem placeholderPart_injective (P Q : String)
    (h : (if P ≠ "" then specPlaceholderTag P else "")
        = (if Q ≠ "" then specPlaceholderTag Q else "")) : P = Q := by
  by_cases hP : P = "" <;> by_cases hQ : Q = ""
  · rw [hP, hQ]
  · exfalso
    simp only [hP, hQ, ne_eq, not_true_eq_false, not_false_eq_true, if_true, if_false,
      specPlaceholderTag] at h
    have hd := congrArg String.data h
    simp only [String.data_append] at hd
    simp at hd
  · exfalso
    simp only [hP, hQ, ne_eq, not_true_eq_false, not_false_eq_true, if_true, if_false,
      specPlaceholderTag] at h
    have hd := congrArg String.data h
    simp only [String.data_append] at hd
    simp at hd
  · simp only [hP, hQ, ne_eq, not_false_eq_true, if_true, specPlaceholderTag] at h
    have hd := congrArg String.data h
    simp only [String.data_append] at hd
    exact String.ext (List.append_cancel_left (List.append_cancel_right hd))

/-- Two contents built over the same option array are equal only for equal
placeholders. -/
theorem builtContent_placeholder_injective (P Q v n v2 n2 : String) (O : List OptEntry)
    (h : builtContent ⟨P, v, n, O⟩ = builtContent ⟨Q, v2, n2, O⟩) : P = Q := by
  rw [builtContent_eq_spec, builtContent_eq_spec] at h
  unfold specBuildContent at h
  apply placeholderPart_injective
  have hd := congrArg String.data h
  simp only [String.data_append] at hd
  exact String.ext (List.append_cancel_right hd)

/-- None of the setters attaches or detaches a target. -/
theorem perform_currTarget (self : Instance) (call : Call) :
    (call.perform self)._currTarget = self._currTarget := by
  cases call <;> rfl

theorem performAll_currTarget (self : Instance) (calls : List Call) :
    (performAll self calls)._currTarget = self._currTarget := by
  induction calls generalizing self with
  | nil => rfl
  | cons call calls ih =>
    simp only [performAll, List.foldl_cons] at ih ⊢
    rw [ih, perform_currTarget]

theorem setOpts_contentCurrent (self : Instance) (opts : List OptEntry) :
    ContentCurrent (setOpts self opts) := rfl

theorem setValue_contentCurrent (self : Instance) (str : String)
    (h : ContentCurrent self) : ContentCurrent (setValue self str) := h

theorem setName_contentCurrent (self : Instance) (str : String)
    (h : ContentCurrent self) : ContentCurrent (setName self str) := h

/-! ## The markup builder -/

/-- C1: for every placeholder `P` and option sequence `O`, `buildOpts` assigns to its
target, whichever object that is, the content the specification describes: the
placeholder tag if `P` is non-empty, then the tag of every pair in input order, label
and value inserted as they are.  On an instance the `content` field then holds that
string, on an `options` object the `content` property does. -/
theorem buildOpts_assigns_spec_content (P value name : String) (O : List OptEntry) :
    (∀ (τ : Type) (inst : ContentTarget τ) (target : τ),
        @buildOpts τ inst ⟨P, value, name, O⟩ target
          = inst.assignContent target (specBuildContent P O))
    ∧ (∀ target : Instance,
        (buildOpts ⟨P, value, name, O⟩ target).content = specBuildContent P O)
    ∧ (∀ target : Options,
        (buildOpts ⟨P, value, name, O⟩ target).content = some (specBuildContent P O)) := by
  refine ⟨fun τ inst target => ?_, fun target => ?_, fun target => ?_⟩
  · unfold buildOpts
    rw [builtContent_eq_spec]
  · exact builtContent_eq_spec ⟨P, value, name, O⟩
  · exact congrArg some (builtContent_eq_spec ⟨P, value, name, O⟩)

/-- C10: the builder distributes over concatenation of option arrays: the content built
from `(P, O₁ ++ O₂)` is the content built from `(P, O₁)` followed by the content built
from the empty placeholder and `O₂`.  Hence the content built from `(P, O)` starts with
the content built from `(P, [])`, and appending an entry leaves the markup of the
earlier entries in place and adds the tag of the new entry at the end. -/
theorem builtContent_append (P v n v2 n2 : String) (O₁ O₂ : List OptEntry) :
    builtContent ⟨P, v, n, O₁ ++ O₂⟩
        = builtContent ⟨P, v, n, O₁⟩ ++ builtContent ⟨"", v2, n2, O₂⟩
    ∧ (∃ rest, builtContent ⟨P, v, n, O₁⟩ = builtContent ⟨P, v, n, []⟩ ++ rest)
    ∧ (∀ entry : OptEntry,
        builtContent ⟨P, v, n, O₁ ++ [entry]⟩
          = builtContent ⟨P, v, n, O₁⟩
              ++ ("<option value=\"" ++ entry.2 ++ "\">" ++ entry.1 ++ "</option>")) := by
  refine ⟨?_, ?_, fun entry => ?_⟩
  · simp only [builtContent, buildOptsLoop_append]
    rw [buildOptsLoop_eq O₂, buildOptsLoop_eq O₂ (if "" ≠ "" then _ else _)]
    simp
  · refine ⟨concatAll (O₁.map (fun o => specOptionTag o.1 o.2)), ?_⟩
    simp only [builtContent, buildOptsLoop]
    rw [buildOptsLoop_eq]
  · simp only [builtContent, buildOptsLoop_append, buildOptsLoop]

/-! ## Setters and getters -/

/-- C5: with a target attached `getValue` returns the target's value, and `getOpts`
returns the target's property `opts`, whatever the local fields hold and whichever
setters have been called.  On the select
element the base class attaches that property does not exist: for an instance built
with the entries `a` and `b` and mounted on a select element that holds these two
options, `getOpts` returns `undefined` and not the options of the live target. -/
theorem getOpts_attached_reads_opts_property :
    (∀ (self : Instance) (target : LiveTarget) (calls : List Call),
        self._currTarget = some target →
        getValue (performAll self calls) = target.value
          ∧ getOpts (performAll self calls) = target.opts)
    ∧ ∃ s o, construct famousSurface
          (some ⟨none, none, none, some [("a", "1"), ("b", "2")], none⟩) = .ok (s, o)
        ∧ (mount s (selectElement "1" [("a", "1"), ("b", "2")]))._currTarget
            = some (selectElement "1" [("a", "1"), ("b", "2")])
        ∧ getValue (mount s (selectElement "1" [("a", "1"), ("b", "2")])) = "1"
        ∧ getOpts (mount s (selectElement "1" [("a", "1"), ("b", "2")])) = none
        ∧ getOpts (mount s (selectElement "1" [("a", "1"), ("b", "2")]))
            ≠ some (selectElement "1" [("a", "1"), ("b", "2")]).options := by
  refine ⟨fun self target calls h => ?_, _, _, rfl, rfl, rfl, rfl, by decide⟩
  have h2 : (performAll self calls)._currTarget = some target := by
    rw [performAll_currTarget, h]
  simp [getValue, getOpts, h2]

/-- C6: on an instance with no target attached a getter returns what its setter was
last given: `getOpts` after `setOpts(O)` returns `O` itself, `getValue` after
`setValue(x)` returns `x`; a call of another setter in between does not change that. -/
theorem getter_after_setter_unattached (self : Instance) (h : self._currTarget = none)
    (O : List OptEntry) (x : String) :
    getOpts (setOpts self O) = some O ∧ getValue (setValue self x) = x
    ∧ getOpts (setValue (setOpts self O) x) = some O
    ∧ getValue (setOpts (setValue self x) O) = x := by
  simp [getOpts, getValue, setOpts, setValue, buildOpts, ContentTarget.assignContent, h]

theorem getter_after_setter_unattached_witness :
    (⟨⟨"", "", "", []⟩, ⟨"", false, none⟩⟩ : Instance)._currTarget = none
    ∧ getOpts (setOpts ⟨⟨"", "", "", []⟩, ⟨"", false, none⟩⟩ [("Famo", "1"), ("us", "2")])
        = some [("Famo", "1"), ("us", "2")]
    ∧ getValue (setValue ⟨⟨"", "", "", []⟩, ⟨"", false, none⟩⟩ "x") = "x" :=
  ⟨rfl,
   (getter_after_setter_unattached ⟨⟨"", "", "", []⟩, ⟨"", false, none⟩⟩ rfl
      [("Famo", "1"), ("us", "2")] "x").1,
   (getter_after_setter_unattached ⟨⟨"", "", "", []⟩, ⟨"", false, none⟩⟩ rfl
      [("Famo", "1"), ("us", "2")] "x").2.1⟩

/-- C7: each of `setPlaceholder`, `setValue`, `setName` and `setOpts` returns with the
content-dirty flag set, whatever the flag was before. -/
theorem setters_mark_dirty (self : Instance) (str : String) (opts : List OptEntry) :
    (setPlaceholder self str)._contentDirty = true
    ∧ (setValue self str)._contentDirty = true
    ∧ (setName self str)._contentDirty = true
    ∧ (setOpts self opts)._contentDirty = true :=
  ⟨rfl, rfl, rfl, rfl⟩

/-- C9: `setValue(x)` changes the local value and the dirty flag only: content,
placeholder, name, option array and attached target are as before the call, and the
markup the builder would produce is the same whatever the value is, so no option is
marked selected on account of `x`. -/
theorem setValue_frame (self : Instance) (x : String) :
    (setValue self x).content = self.content
    ∧ (setValue self x)._placeholder = self._placeholder
    ∧ (setValue self x)._name = self._name
    ∧ (setValue self x).opts = self.opts
    ∧ (setValue self x)._currTarget = self._currTarget
    ∧ (setValue self x)._value = x
    ∧ (setValue self x)._contentDirty = true
    ∧ builtContent (setValue self x).toSelectFields = builtContent self.toSelectFields
    ∧ (setOpts (setValue self x) self.opts).content = (setOpts self self.opts).content :=
  ⟨rfl, rfl, rfl, rfl, rfl, rfl, rfl, rfl, rfl⟩

/-! ## Construction -/

/-- C2: construction builds the content at once.  For every `options` object the
constructor writes the markup of `options.placeholder || ''` and `options.opts || []`
into `options.content` before it calls the base constructor; with a base constructor
that adopts the content it is handed, the new instance's own `content` field is that
markup, and it is current.  In particular the two scenarios of the specification yield
the placeholder tag followed by the tags of `Famo` and `us`, and the empty string. -/
theorem construct_builds_content (Surface : Options → SurfaceFields)
    (hSurface : ∀ (o : Options) (c : String), o.content = some c → (Surface o).content = c) :
    (∀ cfg : Options, ∃ s o, construct Surface (some cfg) = .ok (s, o)
        ∧ o.content = some (specBuildContent (orEmptyString cfg.placeholder)
            (orEmptyArray cfg.opts))
        ∧ s.content = specBuildContent (orEmptyString cfg.placeholder)
            (orEmptyArray cfg.opts)
        ∧ ContentCurrent s)
    ∧ (∃ s o, construct Surface
          (some ⟨some "Pick one", none, none, some [("Famo", "1"), ("us", "2")], none⟩)
          = .ok (s, o)
        ∧ s.content = "<option value=\"\" disabled selected>Pick one</option><option value=\"1\">Famo</option><option value=\"2\">us</option>")
    ∧ (∃ s o, construct Surface (some ⟨none, none, none, some [], none⟩) = .ok (s, o)
        ∧ s.content = "") := by
  refine ⟨fun cfg => ⟨_, _, rfl, ?_, ?_, ?_⟩, ⟨_, _, rfl, ?_⟩, ⟨_, _, rfl, ?_⟩⟩
  · exact congrArg some (builtContent_eq_spec _)
  · exact (hSurface _ _ rfl).trans (builtContent_eq_spec _)
  · exact hSurface _ _ rfl
  · exact hSurface _ _ rfl
  · exact hSurface _ _ rfl

theorem construct_builds_content_witness :
    (∀ (o : Options) (c : String), o.content = some c → (famousSurface o).content = c)
    ∧ ∃ s o, construct famousSurface
          (some ⟨some "Pick one", none, none, some [("Famo", "1"), ("us", "2")], none⟩)
          = .ok (s, o)
        ∧ s.content = "<option value=\"\" disabled selected>Pick one</option><option value=\"1\">Famo</option><option value=\"2\">us</option>" :=
  have h : ∀ (o : Options) (c : String), o.content = some c →
      (famousSurface o).content = c := by
    intro o c hc
    simp only [famousSurface, hc, orEmptyString]
    split <;> simp_all
  ⟨h, (construct_builds_content famousSurface h).2.1⟩

/-- C8: with the `options` object omitted the constructor fails: line 29 reads
`options.placeholder` of `undefined`.  With an `options` object it succeeds, an absent
`placeholder`, `value` or `name` becomes the empty string and an absent `opts` the
empty array, and a field that is present is stored as given. -/
theorem construct_omitted_options_fails (Surface : Options → SurfaceFields) :
    construct Surface none = .error .typeError
    ∧ ∀ cfg : Options, ∃ s o, construct Surface (some cfg) = .ok (s, o)
        ∧ (cfg.placeholder = none → s._placeholder = "")
        ∧ (cfg.value = none → s._value = "")
        ∧ (cfg.name = none → s._name = "")
        ∧ (cfg.opts = none → s.opts = [])
        ∧ (∀ x, cfg.placeholder = some x → s._placeholder = x)
        ∧ (∀ x, cfg.value = some x → s._value = x)
        ∧ (∀ x, cfg.name = some x → s._name = x)
        ∧ (∀ x, cfg.opts = some x → s.opts = x) := by
  have hstr : ∀ x : String, orEmptyString (some x) = x := by
    intro x
    simp only [orEmptyString]
    split <;> simp_all
  refine ⟨rfl, fun cfg => ⟨_, _, rfl, ?_, ?_, ?_, ?_, ?_, ?_, ?_, ?_⟩⟩
  · intro h; simp [h, orEmptyString]
  · intro h; simp [h, orEmptyString]
  · intro h; simp [h, orEmptyString]
  · intro h; simp [h, orEmptyArray]
  · intro x h; simp [h, hstr]
  · intro x h; simp [h, hstr]
  · intro x h; simp [h, hstr]
  · intro x h; simp [h, orEmptyArray]

/-! ## The content after `setPlaceholder` -/

/-- C3: `setPlaceholder` stores the new placeholder and leaves `content` as it was, so
whenever the content was current and the placeholder really changes, the content no
longer is the markup of the current placeholder and option array.  After construction
from an empty option array and `setPlaceholder("Pick one")` the content is still the
empty string, while the markup of the current state is the placeholder tag. -/
theorem setPlaceholder_leaves_content_stale :
    (∀ (self : Instance) (str : String), (setPlaceholder self str).content = self.content)
    ∧ (∀ (self : Instance) (str : String), ContentCurrent self → str ≠ self._placeholder →
        ¬ ContentCurrent (setPlaceholder self str))
    ∧ ∃ s o, construct famousSurface (some ⟨none, none, none, some [], none⟩) = .ok (s, o)
        ∧ ContentCurrent s
        ∧ (setPlaceholder s "Pick one").content = ""
        ∧ builtContent (setPlaceholder s "Pick one").toSelectFields
            = "<option value=\"\" disabled selected>Pick one</option>"
        ∧ ¬ ContentCurrent (setPlaceholder s "Pick one") := by
  refine ⟨fun _ _ => rfl, fun self str hc hne hc2 => ?_,
    _, _, rfl, by decide, by decide, by decide, by decide⟩
  have h : builtContent ⟨str, self._value, self._name, self.opts⟩
      = builtContent ⟨self._placeholder, self._value, self._name, self.opts⟩ :=
    (Eq.symm hc2).trans hc
  exact hne (builtContent_placeholder_injective _ _ _ _ _ _ _ h)

/-! ## The option tags of the markup -/

/-- C4: for every placeholder `P` and option sequence `O` the markup `buildOpts` builds
depends on `P` and `O` only, and it consists of exactly
`len(O) + (1 if P is non-empty else 0)` option tags written one after the other: the
placeholder tag first if `P` is non-empty, then the tag of the entry at index `i` of
`O` at position `i` after it, for every `i`. -/
theorem builtContent_tags_in_order (P v n : String) (O : List OptEntry) :
    builtContent ⟨P, v, n, O⟩ = concatAll (specTags P O)
    ∧ (specTags P O).length = O.length + (if P ≠ "" then 1 else 0)
    ∧ (P ≠ "" → (specTags P O)[0]? = some (specPlaceholderTag P))
    ∧ (∀ i : Nat, (specTags P O)[(if P ≠ "" then 1 else 0) + i]?
        = (O[i]?).map (fun o => specOptionTag o.1 o.2))
    ∧ (∀ v2 n2 : String, builtContent ⟨P, v2, n2, O⟩ = builtContent ⟨P, v, n, O⟩) := by
  refine ⟨?_, specTags_length P O, fun hP => ?_, fun i => ?_, fun v2 n2 => rfl⟩
  · rw [builtContent_eq_spec, specBuildContent_eq_concatAll]
  · simp [specTags, hP]
  · by_cases hP : P = ""
    · simp [specTags, hP]
    · simp [specTags, hP, Nat.add_comm 1 i]

end SelectSurface
